import Mathlib

/-!
Verification development for the fluid cursor background animation of the
TedxTIST client.  The repository contains two animation variants of the
same design:

* `src/app/components/FluidCursorBackground.tsx` — a thread variant whose
  head points chase the pointer (attraction force, noise, damping, speed
  clamp, bounds recovery, anchored fixed-length constraints) plus an older
  particle variant in the same file;
* `src/unnamed/part_001` — a spring/repulsion variant with a rest position
  per point, mouse repulsion inside an interaction radius, symmetric
  distance constraints and a per-segment lighting pass.

The numeric state is embedded over `ℚ`.  The host's `Math.hypot` /
`Math.sqrt` calls are embedded as oracle arguments: a definition receives
the square-root value (or a square-root function), and the theorems
hypothesise the defining property of that value on the inputs at which the
source evaluates it.
-/

namespace FluidSim

/-- Squared Euclidean norm of a velocity vector `(vx, vy)`. -/
def sqNorm (v : ℚ × ℚ) : ℚ := v.1 ^ 2 + v.2 ^ 2

/-- Velocity clamp of `FluidCursorBackground.tsx` (particle variant lines
103–107 with `MAX_SPEED = 30`, thread variant lines 319–323 with
`MAX_SPEED = 24`): if the speed exceeds the cap the vector is rescaled by
`maxSpeed / speed`, otherwise it is untouched.  `speed` is the value of
`Math.hypot(vx, vy)` supplied by the caller. -/
def clampVelocity (maxSpeed vx vy speed : ℚ) : ℚ × ℚ :=
  if speed > maxSpeed then (vx / speed * maxSpeed, vy / speed * maxSpeed)
  else (vx, vy)

namespace Threads

/-- `FOLLOW_FORCE` of the thread variant (line 194). -/
def FOLLOW_FORCE : ℚ := 0.68

/-- `DAMPING` of the thread variant (line 195). -/
def DAMPING : ℚ := 0.92

/-- `MAX_SPEED` of the thread variant (line 196). -/
def MAX_SPEED : ℚ := 24

/-- `SEGMENT_LENGTH` of the thread variant (line 193). -/
def SEGMENT_LENGTH : ℚ := 16

/-- One point of a thread chain: position and velocity (tsx lines 163–168). -/
structure ThreadPoint where
  x : ℚ
  y : ℚ
  vx : ℚ
  vy : ℚ

/-- The cursor state `cursorRef.current` of the thread variant (line 202):
pointer coordinates plus an `active` flag. -/
structure Cursor where
  x : ℚ
  y : ℚ
  active : Bool

/-- The `onPointerLeave` handler of the thread variant (lines 269–271):
clears `active`, touches nothing else. -/
def onPointerLeave (c : Cursor) : Cursor := { c with active := false }

/-- Effective goal position read at the start of a tick (lines 294–299):
the stored pointer position while `active`, otherwise the viewport centre
`(innerWidth * 0.5, innerHeight * 0.5)`. -/
def effectiveGoal (innerWidth innerHeight : ℚ) (c : Cursor) : ℚ × ℚ :=
  (if c.active then c.x else innerWidth * 0.5,
   if c.active then c.y else innerHeight * 0.5)

/-- Head velocity update of one tick (lines 308–323): attraction toward the
goal scaled by `FOLLOW_FORCE * 0.01`, additive noise, damping, then the
speed clamp.  `speed` is the oracle value for `Math.hypot` of the damped
velocity. -/
def headVelocityTick (goalX goalY hx hy vx vy noiseX noiseY speed : ℚ) : ℚ × ℚ :=
  let vx1 := vx + (goalX - hx) * FOLLOW_FORCE * 0.01 + noiseX
  let vy1 := vy + (goalY - hy) * FOLLOW_FORCE * 0.01 + noiseY
  clampVelocity MAX_SPEED (vx1 * DAMPING) (vy1 * DAMPING) speed

/-- The out-of-bounds test on the head (lines 329–334): more than 200 units
outside the viewport on any side. -/
def headOutOfBounds (innerWidth innerHeight : ℚ) (p : ThreadPoint) : Bool :=
  decide (p.x < -200) || decide (p.x > innerWidth + 200) ||
    decide (p.y < -200) || decide (p.y > innerHeight + 200)

/-- The recovery body (lines 335–343): the head is teleported to
`goal + 40 * (cos angle, sin angle)` — `c` and `s` stand for the cosine and
sine of the random angle — and each later point `i ≥ 1` is laid out at
`head - i * SEGMENT_LENGTH * (c, s)` with zero velocity.  The head's own
velocity fields are not assigned by the source, so they are carried over. -/
def recoverThread (goalX goalY c s : ℚ) : List ThreadPoint → List ThreadPoint
  | [] => []
  | head :: tail =>
    let hx := goalX + c * 40
    let hy := goalY + s * 40
    { x := hx, y := hy, vx := head.vx, vy := head.vy } ::
      (List.range tail.length).map fun (j : ℕ) =>
        { x := hx - c * ((j : ℚ) + 1) * SEGMENT_LENGTH,
          y := hy - s * ((j : ℚ) + 1) * SEGMENT_LENGTH,
          vx := 0, vy := 0 }

/-- The bounds-recovery step of one tick (lines 328–344): when the head has
exited the extended margin the whole thread is rebuilt by `recoverThread`,
otherwise the points are left as they are. -/
def boundsStep (innerWidth innerHeight goalX goalY c s : ℚ)
    (pts : List ThreadPoint) : List ThreadPoint :=
  match pts with
  | [] => []
  | head :: tail =>
    if headOutOfBounds innerWidth innerHeight head then
      recoverThread goalX goalY c s (head :: tail)
    else head :: tail

/-- The guarded divisor `Math.hypot(segDx, segDy) || 1` of the anchored
constraint loop (line 353): a zero distance is replaced by `1` before the
division.  `h` is the oracle value of `Math.hypot(segDx, segDy)`. -/
def guardedDistance (h : ℚ) : ℚ := if h = 0 then 1 else h

end Threads

namespace Subtle

/-- `SEGMENT_LENGTH` of the spring/repulsion variant (part_001 line 9). -/
def SEGMENT_LENGTH : ℚ := 20

/-- `CONSTRAINT_ITERATIONS` of the spring/repulsion variant (line 12). -/
def CONSTRAINT_ITERATIONS : ℕ := 10

/-- `INTERACTION_RADIUS` of the spring/repulsion variant (line 13). -/
def INTERACTION_RADIUS : ℚ := 150

/-- `PUSH_FORCE` of the spring/repulsion variant (line 14). -/
def PUSH_FORCE : ℚ := 2.5

/-- One point of the spring/repulsion variant (lines 24–31): position,
remembered rest position, velocity. -/
structure ThreadPoint where
  x : ℚ
  y : ℚ
  restX : ℚ
  restY : ℚ
  vx : ℚ
  vy : ℚ

/-- The cursor state of the spring/repulsion variant (line 47): plain
coordinates, no activity flag. -/
structure Cursor where
  x : ℚ
  y : ℚ

/-- The `onPointerLeave` handler of the spring/repulsion variant (lines
144–147): both coordinates are overwritten with the off-screen sentinel
`-9999`, whatever they were. -/
def onPointerLeave (_c : Cursor) : Cursor := { x := -9999, y := -9999 }

/-- The mouse-repulsion contribution to a point's velocity during one tick
(lines 191–203): applied only when the squared distance to the cursor is
below `INTERACTION_RADIUS²` and above the `0.01` epsilon; `distance` is the
oracle value of `Math.sqrt(distanceSq)`. -/
def repulsionDelta (cursorX cursorY px py distance : ℚ) : ℚ × ℚ :=
  let dx := px - cursorX
  let dy := py - cursorY
  let distanceSq := dx * dx + dy * dy
  if distanceSq < INTERACTION_RADIUS * INTERACTION_RADIUS ∧ distanceSq > 0.01 then
    let falloff := 1 - distance / INTERACTION_RADIUS
    let force := falloff * falloff * PUSH_FORCE
    (dx / distance * force, dy / distance * force)
  else (0, 0)

/-- One symmetric pairwise constraint correction (lines 224–241): when the
current distance `d` is zero the pair is skipped, otherwise both points are
moved by opposite offsets of magnitude `|SEGMENT_LENGTH - d| / 2` along the
current direction.  `d` is the oracle value of `Math.hypot(dx, dy)`. -/
def correctPair (d : ℚ) (prev point : ThreadPoint) : ThreadPoint × ThreadPoint :=
  if d = 0 then (prev, point)
  else
    let dx := point.x - prev.x
    let dy := point.y - prev.y
    let difference := SEGMENT_LENGTH - d
    let percent := difference / d / 2
    let offsetX := dx * percent
    let offsetY := dy * percent
    ({ prev with x := prev.x - offsetX, y := prev.y - offsetY },
     { point with x := point.x + offsetX, y := point.y + offsetY })

/-- Sequential sweep of the inner constraint loop (lines 224–241), carrying
the updated previous point into the next pair exactly as the in-place
mutation does.  `hyp` is the `Math.hypot` oracle. -/
def relaxAux (hyp : ℚ → ℚ → ℚ) : ThreadPoint → List ThreadPoint → List ThreadPoint
  | p, [] => [p]
  | p, q :: rest =>
      let r := correctPair (hyp (q.x - p.x) (q.y - p.y)) p q
      r.1 :: relaxAux hyp r.2 rest

/-- One full pass of the inner constraint loop over a thread's points. -/
def relaxPass (hyp : ℚ → ℚ → ℚ) : List ThreadPoint → List ThreadPoint
  | [] => []
  | p :: rest => relaxAux hyp p rest

/-- The outer constraint loop (line 223): `iters` passes of `relaxPass`. -/
def relax (hyp : ℚ → ℚ → ℚ) : ℕ → List ThreadPoint → List ThreadPoint
  | 0, pts => pts
  | n + 1, pts => relax hyp n (relaxPass hyp pts)

/-- `Math.hypot` oracle for the concrete relaxation run below: on an
axis-aligned offset (`b = 0`) it is exactly `|a|`, the true Euclidean norm;
elsewhere it falls back to `Rat.sqrt`.  The run in
`constraint_relaxation_is_soft` keeps every point on the x-axis, so only
the exact branch is ever taken. -/
def traceHypot (a b : ℚ) : ℚ :=
  if b = 0 then (if a < 0 then -a else a) else Rat.sqrt (a * a + b * b)

/-- A three-point chain on the x-axis with both adjacent distances 30,
used as the concrete input of the softness run (rest positions equal the
initial positions, velocities zero). -/
def softChain : List ThreadPoint :=
  [⟨0, 0, 0, 0, 0, 0⟩, ⟨30, 0, 30, 0, 0, 0⟩, ⟨60, 0, 60, 0, 0, 0⟩]

/-- The raw specular base of the lit renderer (lines 264–267): the light
direction `(lightNX, lightNY)` is reflected about the segment normal
`(nx, ny)`, then the reflection is dotted with the zero vector in
`Math.max(0, -(rx * 0 + ry * 0 - 1))`. -/
def specularRaw (lightNX lightNY nx ny : ℚ) : ℚ :=
  let reflectDot := 2 * (nx * lightNX + ny * lightNY)
  let rx := lightNX - reflectDot * nx
  let ry := lightNY - reflectDot * ny
  max 0 (-(rx * 0 + ry * 0 - 1))

/-- The specular term of the lit renderer (line 268):
`Math.pow(specularRaw, thread.specularPower) * 0.3`. -/
def specular (lightNX lightNY nx ny : ℚ) (specularPower : ℕ) : ℚ :=
  specularRaw lightNX lightNY nx ny ^ specularPower * 0.3

/-- Perpendicular unit normal of a drawn segment (lines 252–258), with the
guarded length `segLen = Math.hypot(tDx, tDy) || 1` supplied by the caller. -/
def segmentNormal (tDx tDy segLen : ℚ) : ℚ × ℚ := (-tDy / segLen, tDx / segLen)

end Subtle

namespace Mount

/-- Observable work performed by the mount effect: which event listeners
were registered, whether the thread/particle state was seeded, and
whether an animation frame was scheduled. -/
structure MountOutcome where
  listenersRegistered : List String
  threadsSeeded : Bool
  frameScheduled : Bool

/-- The outcome of an early return: nothing registered, nothing seeded,
nothing scheduled. -/
def noWork : MountOutcome :=
  { listenersRegistered := [], threadsSeeded := false, frameScheduled := false }

/-- Control flow of the mount effect (tsx lines 24–30 and 206–212, part_001
lines 53–58): bail out before any work if the canvas is unavailable, then
bail out before any work if the 2D context is unavailable; only then
resize, seed, register the listeners and start the render loop. -/
def mountEffect (canvasAvailable contextAvailable : Bool) : MountOutcome :=
  if !canvasAvailable then noWork
  else if !contextAvailable then noWork
  else
    { listenersRegistered := ["resize", "pointermove", "pointerdown", "pointerleave"],
      threadsSeeded := true,
      frameScheduled := true }

end Mount

/-! Theorems. -/

/-- Helper: the repulsion branch is not entered when the squared distance to
the cursor is at least `INTERACTION_RADIUS²`. -/
lemma repulsionDelta_eq_zero_of_far (cursorX cursorY px py distance : ℚ)
    (hfar : Subtle.INTERACTION_RADIUS * Subtle.INTERACTION_RADIUS
      ≤ (px - cursorX) * (px - cursorX) + (py - cursorY) * (py - cursorY)) :
    Subtle.repulsionDelta cursorX cursorY px py distance = (0, 0) := by
  simp only [Subtle.repulsionDelta]
  rw [if_neg]
  rintro ⟨hlt, -⟩
  exact absurd hlt (not_lt.2 hfar)

/-- Claim C9: each symmetric pairwise constraint correction moves the two
adjacent points by equal and opposite offsets, so the coordinate-wise sum
(equivalently the midpoint) of the pair is exactly preserved — for every
distance-oracle value `d`, including the skipped `d = 0` case, hence for
every pair, iteration and tick. -/
theorem correctPair_preserves_pair_sum (d : ℚ) (prev point : Subtle.ThreadPoint) :
    (Subtle.correctPair d prev point).1.x - prev.x
        = -((Subtle.correctPair d prev point).2.x - point.x) ∧
    (Subtle.correctPair d prev point).1.y - prev.y
        = -((Subtle.correctPair d prev point).2.y - point.y) ∧
    (Subtle.correctPair d prev point).1.x + (Subtle.correctPair d prev point).2.x
        = prev.x + point.x ∧
    (Subtle.correctPair d prev point).1.y + (Subtle.correctPair d prev point).2.y
        = prev.y + point.y := by
  by_cases hd : d = 0
  · simp [Subtle.correctPair, hd]
  · simp only [Subtle.correctPair, if_neg hd]
    refine ⟨by ring, by ring, by ring, by ring⟩

/-- Claim C4 (code bug): the specular term of the lit renderer is the
constant `3/10` for every segment, because the reflected light direction is
dotted with the zero vector — `Math.max(0, -(rx * 0 + ry * 0 - 1))` reduces
to `1` — so raising it to the per-thread exponent yields `1` and the
specular contribution cannot vary with segment orientation: any two
segments, whatever their tangent directions, receive the same value. -/
theorem specular_is_constant (lightNX lightNY nx ny nx2 ny2 : ℚ) (specularPower : ℕ) :
    Subtle.specular lightNX lightNY nx ny specularPower = 3 / 10 ∧
    Subtle.specular lightNX lightNY nx ny specularPower
      = Subtle.specular lightNX lightNY nx2 ny2 specularPower := by
  have h : ∀ a b : ℚ, Subtle.specularRaw lightNX lightNY a b = 1 := by
    intro a b
    simp only [Subtle.specularRaw, mul_zero, add_zero, zero_add, zero_sub, neg_neg]
    exact max_eq_right zero_le_one
  constructor
  · simp only [Subtle.specular, h, one_pow, one_mul]
    norm_num
  · simp only [Subtle.specular, h]

/-- Claim C6: the pointer-leave handler of the thread variant clears the
`active` flag and leaves the stored pointer coordinates unchanged, and any
tick that reads the cursor while `active` is false uses the viewport centre
`(innerWidth * 0.5, innerHeight * 0.5)` as the effective goal. -/
theorem pointerLeave_keeps_position_goal_falls_back (c goalState : Threads.Cursor)
    (innerWidth innerHeight : ℚ) :
    (Threads.onPointerLeave c).x = c.x ∧
    (Threads.onPointerLeave c).y = c.y ∧
    (Threads.onPointerLeave c).active = false ∧
    (goalState.active = false →
      Threads.effectiveGoal innerWidth innerHeight goalState
        = (innerWidth * 0.5, innerHeight * 0.5)) ∧
    Threads.effectiveGoal innerWidth innerHeight (Threads.onPointerLeave c)
      = (innerWidth * 0.5, innerHeight * 0.5) := by
  refine ⟨rfl, rfl, rfl, fun h => ?_, ?_⟩ <;>
    simp [Threads.effectiveGoal, Threads.onPointerLeave, *]

/-- Witness for `pointerLeave_keeps_position_goal_falls_back` at a concrete
inactive cursor and viewport. -/
theorem pointerLeave_keeps_position_goal_falls_back_witness :
    Threads.effectiveGoal 800 600 ⟨1, 2, false⟩ = (800 * 0.5, 600 * 0.5) :=
  (pointerLeave_keeps_position_goal_falls_back ⟨7, 8, true⟩ ⟨1, 2, false⟩ 800 600).2.2.2.1 rfl

/-- Claim C8: when the canvas or its 2D context is unavailable at mount, the
mount effect returns early: no listeners are registered, no state is
seeded, no animation frame is scheduled. -/
theorem mount_unavailable_does_no_work (canvasAvailable contextAvailable : Bool)
    (h : canvasAvailable = false ∨ contextAvailable = false) :
    Mount.mountEffect canvasAvailable contextAvailable = Mount.noWork ∧
    (Mount.mountEffect canvasAvailable contextAvailable).listenersRegistered = [] ∧
    (Mount.mountEffect canvasAvailable contextAvailable).threadsSeeded = false ∧
    (Mount.mountEffect canvasAvailable contextAvailable).frameScheduled = false := by
  have he : Mount.mountEffect canvasAvailable contextAvailable = Mount.noWork := by
    rcases h with h | h
    · subst h
      rfl
    · subst h
      cases canvasAvailable <;> rfl
  refine ⟨he, ?_, ?_, ?_⟩ <;> rw [he] <;> rfl

/-- Witness for `mount_unavailable_does_no_work`: a missing canvas with an
available context yields no work. -/
theorem mount_unavailable_does_no_work_witness :
    Mount.mountEffect false true = Mount.noWork :=
  (mount_unavailable_does_no_work false true (Or.inl rfl)).1

/-- Claim C10: the pointer-leave handler of the spring/repulsion variant
stores the sentinel `(-9999, -9999)`, and for every point whose squared
distance to the sentinel exceeds `INTERACTION_RADIUS²` — in particular
every point with nonnegative coordinates — the repulsion branch is not
entered, so no repulsion force is applied. -/
theorem pointerLeave_sentinel_stops_repulsion (c : Subtle.Cursor) (px py distance : ℚ) :
    Subtle.onPointerLeave c = ⟨-9999, -9999⟩ ∧
    (Subtle.INTERACTION_RADIUS ^ 2
        < (px - (Subtle.onPointerLeave c).x) ^ 2 + (py - (Subtle.onPointerLeave c).y) ^ 2 →
      Subtle.repulsionDelta (Subtle.onPointerLeave c).x (Subtle.onPointerLeave c).y
          px py distance = (0, 0)) ∧
    (0 ≤ px → 0 ≤ py →
      Subtle.repulsionDelta (Subtle.onPointerLeave c).x (Subtle.onPointerLeave c).y
          px py distance = (0, 0)) := by
  refine ⟨rfl, fun hfar => ?_, fun hpx hpy => ?_⟩
  · refine repulsionDelta_eq_zero_of_far _ _ _ _ _ ?_
    rw [Subtle.INTERACTION_RADIUS] at hfar ⊢
    nlinarith [hfar]
  · refine repulsionDelta_eq_zero_of_far _ _ _ _ _ ?_
    have hx : (Subtle.onPointerLeave c).x = -9999 := rfl
    have hy : (Subtle.onPointerLeave c).y = -9999 := rfl
    rw [hx, hy, Subtle.INTERACTION_RADIUS]
    have h1 : (9999 : ℚ) ≤ px - -9999 := by linarith
    have h2 : (9999 : ℚ) * 9999 ≤ (px - -9999) * (px - -9999) :=
      mul_le_mul h1 h1 (by norm_num) (by linarith)
    have h3 : 0 ≤ (py - -9999) * (py - -9999) := mul_self_nonneg _
    linarith

/-- Witness for `pointerLeave_sentinel_stops_repulsion`: after pointer-leave
the origin receives no repulsion force. -/
theorem pointerLeave_sentinel_stops_repulsion_witness :
    Subtle.repulsionDelta (Subtle.onPointerLeave ⟨3, 4⟩).x (Subtle.onPointerLeave ⟨3, 4⟩).y
        0 0 1 = (0, 0) :=
  (pointerLeave_sentinel_stops_repulsion ⟨3, 4⟩ 0 0 1).2.2 le_rfl le_rfl

/-- Claim C5: after the velocity clamp the squared speed is at most
`maxSpeed²`; when the pre-clamp speed exceeds the cap the vector is rescaled
to squared magnitude exactly `maxSpeed²` by the positive factor
`maxSpeed / speed`, preserving its direction, and otherwise the velocity is
left unchanged.  `speed` is the `Math.hypot` oracle value, characterised by
`0 ≤ speed` and `speed² = vx² + vy²`. -/
theorem clampVelocity_caps_speed (maxSpeed vx vy speed : ℚ)
    (hM : 0 < maxSpeed) (h0 : 0 ≤ speed) (hsq : speed ^ 2 = vx ^ 2 + vy ^ 2) :
    sqNorm (clampVelocity maxSpeed vx vy speed) ≤ maxSpeed ^ 2 ∧
    (maxSpeed < speed →
      sqNorm (clampVelocity maxSpeed vx vy speed) = maxSpeed ^ 2 ∧
      ∃ k : ℚ, 0 < k ∧ clampVelocity maxSpeed vx vy speed = (k * vx, k * vy)) ∧
    (speed ≤ maxSpeed → clampVelocity maxSpeed vx vy speed = (vx, vy)) := by
  by_cases hgt : speed > maxSpeed
  · have hpos : 0 < speed := lt_trans hM hgt
    have hs0 : speed ≠ 0 := hpos.ne'
    have heq : sqNorm (clampVelocity maxSpeed vx vy speed) = maxSpeed ^ 2 := by
      simp only [clampVelocity, if_pos hgt, sqNorm]
      field_simp
      linear_combination (-(maxSpeed ^ 2)) * hsq
    refine ⟨le_of_eq heq, fun _ => ⟨heq, maxSpeed / speed, div_pos hM hpos, ?_⟩,
      fun hle => absurd hgt (not_lt.2 hle)⟩
    simp only [clampVelocity, if_pos hgt]
    exact Prod.ext (by ring) (by ring)
  · have hle : speed ≤ maxSpeed := not_lt.1 hgt
    have hid : clampVelocity maxSpeed vx vy speed = (vx, vy) := by
      simp only [clampVelocity, if_neg hgt]
    refine ⟨?_, fun hlt => absurd hlt hgt, fun _ => hid⟩
    rw [hid]
    show vx ^ 2 + vy ^ 2 ≤ maxSpeed ^ 2
    rw [← hsq]
    exact pow_le_pow_left₀ h0 hle 2

/-- Witness for `clampVelocity_caps_speed` at velocity `(30, 40)`, speed 50,
cap 24. -/
theorem clampVelocity_caps_speed_witness :
    sqNorm (clampVelocity 24 30 40 50) ≤ 24 ^ 2 :=
  (clampVelocity_caps_speed 24 30 40 50 (by norm_num) (by norm_num) (by norm_num)).1

/-- Claim C3: every division by an inter-point distance is guarded.  In the
anchored constraint solver the divisor `Math.hypot(...) || 1` is strictly
positive; in the symmetric constraint solver a zero-distance pair is
skipped unchanged; in the repulsion computation the force is zero unless
the squared distance exceeds the `0.01` epsilon, and whenever it does
exceed it the divisor `distance` is strictly greater than `1/10` — so in
the rational embedding every tick maps finite state to finite state. -/
theorem division_by_distance_is_guarded (h cursorX cursorY px py distance : ℚ)
    (prev point : Subtle.ThreadPoint)
    (hh : 0 ≤ h) (hd0 : 0 ≤ distance)
    (hdsq : distance ^ 2 = (px - cursorX) ^ 2 + (py - cursorY) ^ 2) :
    0 < Threads.guardedDistance h ∧
    Subtle.correctPair 0 prev point = (prev, point) ∧
    ((px - cursorX) ^ 2 + (py - cursorY) ^ 2 ≤ 1 / 100 →
      Subtle.repulsionDelta cursorX cursorY px py distance = (0, 0)) ∧
    (1 / 100 < (px - cursorX) ^ 2 + (py - cursorY) ^ 2 → 1 / 10 < distance) := by
  refine ⟨?_, ?_, fun heps => ?_, fun hbig => ?_⟩
  · unfold Threads.guardedDistance
    by_cases hz : h = 0
    · rw [if_pos hz]
      norm_num
    · rw [if_neg hz]
      exact lt_of_le_of_ne hh (Ne.symm hz)
  · simp [Subtle.correctPair]
  · simp only [Subtle.repulsionDelta]
    rw [if_neg]
    rintro ⟨-, hgt⟩
    rw [show (0.01 : ℚ) = 1 / 100 by norm_num] at hgt
    nlinarith [heps, hgt]
  · nlinarith [hdsq, hbig, hd0]

/-- Witness for `division_by_distance_is_guarded` with oracle values `h = 0`
and `distance = 5` for the point `(3, 4)` against a cursor at the origin. -/
theorem division_by_distance_is_guarded_witness :
    0 < Threads.guardedDistance 0 :=
  (division_by_distance_is_guarded 0 0 0 3 4 5 ⟨0, 0, 0, 0, 0, 0⟩ ⟨1, 1, 1, 1, 1, 1⟩
    le_rfl (by norm_num) (by norm_num)).1

/-- Helper: the squared norm is nonnegative. -/
lemma sqNorm_nonneg (v : ℚ × ℚ) : 0 ≤ sqNorm v :=
  add_nonneg (sq_nonneg _) (sq_nonneg _)

/-- Helper: with the goal sitting at the head position and zero noise, a
head velocity tick is just the damped velocity fed through the clamp. -/
lemma headVelocityTick_no_force (gx gy vx vy speed : ℚ) :
    Threads.headVelocityTick gx gy gx gy vx vy 0 0 speed
      = clampVelocity Threads.MAX_SPEED (vx * Threads.DAMPING) (vy * Threads.DAMPING) speed := by
  simp [Threads.headVelocityTick]

/-- Helper: one damped-then-clamped step shrinks the squared speed by at
least the damping factor squared. -/
lemma clamp_damped_sqNorm_le (vx vy speed : ℚ)
    (_h0 : 0 ≤ speed)
    (hsq : speed ^ 2 = (vx * Threads.DAMPING) ^ 2 + (vy * Threads.DAMPING) ^ 2) :
    sqNorm (clampVelocity Threads.MAX_SPEED (vx * Threads.DAMPING) (vy * Threads.DAMPING) speed)
      ≤ Threads.DAMPING ^ 2 * sqNorm (vx, vy) := by
  have hDsq : Threads.DAMPING ^ 2 * sqNorm (vx, vy) = speed ^ 2 := by
    rw [hsq]
    simp only [sqNorm]
    ring
  by_cases hgt : speed > Threads.MAX_SPEED
  · have hpos : 0 < speed := lt_trans (by norm_num [Threads.MAX_SPEED]) hgt
    have hs0 : speed ≠ 0 := hpos.ne'
    have hval : sqNorm (clampVelocity Threads.MAX_SPEED (vx * Threads.DAMPING)
        (vy * Threads.DAMPING) speed) = Threads.MAX_SPEED ^ 2 := by
      simp only [clampVelocity, if_pos hgt, sqNorm]
      field_simp
      linear_combination (-(Threads.MAX_SPEED ^ 2)) * hsq
    rw [hval, hDsq]
    exact pow_le_pow_left₀ (by norm_num [Threads.MAX_SPEED]) (le_of_lt hgt) 2
  · rw [hDsq]
    simp only [clampVelocity, if_neg hgt, sqNorm, ← hsq]
    exact le_rfl

/-- Claim C7: with the target-attraction and noise contributions zero (the
goal coincides with the head, the noise samples are zero), every tick
multiplies the velocity by `DAMPING`, so the squared speed after `n` ticks
is at most `DAMPING ^ (2n)` times the initial squared speed, and as long as
the initial speed is within the clamp cap the velocity after `n` ticks is
exactly `DAMPING ^ n` times the initial velocity — geometric decay to zero
at rate `DAMPING`.  `s n` is the `Math.hypot` oracle value of tick `n`'s
damped velocity. -/
theorem damping_drives_velocity_to_zero
    (p v : ℕ → ℚ × ℚ) (s : ℕ → ℚ)
    (hstep : ∀ n, v (n + 1) = Threads.headVelocityTick (p n).1 (p n).2 (p n).1 (p n).2
        (v n).1 (v n).2 0 0 (s n))
    (hs0 : ∀ n, 0 ≤ s n)
    (hssq : ∀ n, (s n) ^ 2
        = ((v n).1 * Threads.DAMPING) ^ 2 + ((v n).2 * Threads.DAMPING) ^ 2) :
    (∀ n, sqNorm (v n) ≤ Threads.DAMPING ^ (2 * n) * sqNorm (v 0)) ∧
    (sqNorm (v 0) ≤ Threads.MAX_SPEED ^ 2 →
      ∀ n, v n = (Threads.DAMPING ^ n * (v 0).1, Threads.DAMPING ^ n * (v 0).2)) := by
  have hv : ∀ n, v (n + 1) = clampVelocity Threads.MAX_SPEED ((v n).1 * Threads.DAMPING)
      ((v n).2 * Threads.DAMPING) (s n) := by
    intro n
    rw [hstep n, headVelocityTick_no_force]
  constructor
  · intro n
    induction n with
    | zero => simp
    | succ k ih =>
        have hone : sqNorm (v (k + 1)) ≤ Threads.DAMPING ^ 2 * sqNorm (v k) := by
          rw [hv k]
          have := clamp_damped_sqNorm_le (v k).1 (v k).2 (s k) (hs0 k) (hssq k)
          simpa using this
        calc sqNorm (v (k + 1)) ≤ Threads.DAMPING ^ 2 * sqNorm (v k) := hone
          _ ≤ Threads.DAMPING ^ 2 * (Threads.DAMPING ^ (2 * k) * sqNorm (v 0)) := by
              have hD2 : (0 : ℚ) ≤ Threads.DAMPING ^ 2 := sq_nonneg _
              exact mul_le_mul_of_nonneg_left ih hD2
          _ = Threads.DAMPING ^ (2 * (k + 1)) * sqNorm (v 0) := by ring
  · intro hcap n
    induction n with
    | zero => simp
    | succ k ih =>
        have hsq' : (s k) ^ 2 = Threads.DAMPING ^ (2 * k + 2) * sqNorm (v 0) := by
          rw [hssq k, ih]
          simp only [sqNorm]
          ring
        have hD1 : Threads.DAMPING ^ (2 * k + 2) ≤ 1 :=
          pow_le_one₀ (by norm_num [Threads.DAMPING]) (by norm_num [Threads.DAMPING])
        have hcap' : (s k) ^ 2 ≤ Threads.MAX_SPEED ^ 2 := by
          rw [hsq']
          calc Threads.DAMPING ^ (2 * k + 2) * sqNorm (v 0) ≤ 1 * sqNorm (v 0) :=
                mul_le_mul_of_nonneg_right hD1 (sqNorm_nonneg (v 0))
            _ = sqNorm (v 0) := one_mul _
            _ ≤ Threads.MAX_SPEED ^ 2 := hcap
        have hsle : s k ≤ Threads.MAX_SPEED := by
          by_contra hgt
          push_neg at hgt
          have hMpos : (0 : ℚ) < Threads.MAX_SPEED := by norm_num [Threads.MAX_SPEED]
          nlinarith [hcap', hgt, hMpos]
        rw [hv k, clampVelocity, if_neg (not_lt.2 hsle), ih]
        refine Prod.ext ?_ ?_ <;> simp <;> ring


/-- Witness for `damping_drives_velocity_to_zero`: the constant all-zero
trajectory satisfies the step and oracle hypotheses, and its squared speed
at tick 1 obeys the geometric bound. -/
theorem damping_drives_velocity_to_zero_witness :
    sqNorm ((fun _ : ℕ => ((0 : ℚ), (0 : ℚ))) 1)
      ≤ Threads.DAMPING ^ (2 * 1) * sqNorm ((fun _ : ℕ => ((0 : ℚ), (0 : ℚ))) 0) :=
  (damping_drives_velocity_to_zero (fun _ => (0, 0)) (fun _ => (0, 0)) (fun _ => 0)
    (fun _ => by
      norm_num [Threads.headVelocityTick, clampVelocity, Threads.MAX_SPEED, Threads.DAMPING])
    (fun _ => le_rfl)
    (fun _ => by norm_num)).1 1

set_option maxRecDepth 8000 in
/-- Claim C2: the symmetric constraint solver pulls each adjacent pair
toward the rest distance — an isolated pairwise correction with a sound
nonzero distance oracle lands the pair at squared distance exactly
`SEGMENT_LENGTH ^ 2` along its current direction — yet the relaxation is
soft, not exact: running the full `CONSTRAINT_ITERATIONS` passes on a
concrete three-point chain leaves the first adjacent distance different
from the rest length, because each later pair update disturbs the pair
before it. -/
theorem constraint_relaxation_is_soft (d : ℚ) (prev point : Subtle.ThreadPoint)
    (hd0 : 0 ≤ d) (hdne : d ≠ 0)
    (hdsq : d ^ 2 = (point.x - prev.x) ^ 2 + (point.y - prev.y) ^ 2) :
    ((Subtle.correctPair d prev point).2.x - (Subtle.correctPair d prev point).1.x) ^ 2
        + ((Subtle.correctPair d prev point).2.y - (Subtle.correctPair d prev point).1.y) ^ 2
        = Subtle.SEGMENT_LENGTH ^ 2 ∧
    (∃ p0 p1 p2, Subtle.relax Subtle.traceHypot Subtle.CONSTRAINT_ITERATIONS Subtle.softChain
        = [p0, p1, p2] ∧
      (p1.x - p0.x) ^ 2 + (p1.y - p0.y) ^ 2 ≠ Subtle.SEGMENT_LENGTH ^ 2) := by
  constructor
  · have hx2 : (Subtle.correctPair d prev point).2.x - (Subtle.correctPair d prev point).1.x
        = (point.x - prev.x) * (Subtle.SEGMENT_LENGTH / d) := by
      simp only [Subtle.correctPair, if_neg hdne]
      field_simp
      ring
    have hy2 : (Subtle.correctPair d prev point).2.y - (Subtle.correctPair d prev point).1.y
        = (point.y - prev.y) * (Subtle.SEGMENT_LENGTH / d) := by
      simp only [Subtle.correctPair, if_neg hdne]
      field_simp
      ring
    rw [hx2, hy2]
    field_simp
    linear_combination (-(Subtle.SEGMENT_LENGTH ^ 2)) * hdsq
  · refine ⟨⟨2621435/262144, 0, 0, 0, 0, 0⟩, ⟨15728645/524288, 0, 30, 0, 0, 0⟩,
      ⟨26214405/524288, 0, 60, 0, 0, 0⟩, ?_, ?_⟩
    · norm_num [Subtle.relax, Subtle.relaxPass, Subtle.relaxAux, Subtle.correctPair,
        Subtle.traceHypot, Subtle.softChain, Subtle.SEGMENT_LENGTH, Subtle.CONSTRAINT_ITERATIONS]
    · norm_num [Subtle.SEGMENT_LENGTH]

/-- Witness for `constraint_relaxation_is_soft` at distance oracle 5 for the
pair `(0, 0)`–`(3, 4)`. -/
theorem constraint_relaxation_is_soft_witness :
    ((Subtle.correctPair 5 ⟨0, 0, 0, 0, 0, 0⟩ ⟨3, 4, 0, 0, 0, 0⟩).2.x
        - (Subtle.correctPair 5 ⟨0, 0, 0, 0, 0, 0⟩ ⟨3, 4, 0, 0, 0, 0⟩).1.x) ^ 2
      + ((Subtle.correctPair 5 ⟨0, 0, 0, 0, 0, 0⟩ ⟨3, 4, 0, 0, 0, 0⟩).2.y
        - (Subtle.correctPair 5 ⟨0, 0, 0, 0, 0, 0⟩ ⟨3, 4, 0, 0, 0, 0⟩).1.y) ^ 2
      = Subtle.SEGMENT_LENGTH ^ 2 :=
  (constraint_relaxation_is_soft 5 ⟨0, 0, 0, 0, 0, 0⟩ ⟨3, 4, 0, 0, 0, 0⟩
    (by norm_num) (by norm_num) (by norm_num)).1

/-- Claim C1 counterexample: the bounds recovery does not zero the head's
velocity.  With viewport 800 × 600, goal (100, 100), recovery angle 0 and a
head at x = −300 carrying velocity (5, 0), the recovered thread still
contains a point — its head — with nonzero velocity, refuting the claim
that every point of the thread, including the head, has zero velocity
immediately after the recovery. -/
theorem bounds_recovery_head_keeps_velocity :
    ∃ q ∈ Threads.boundsStep 800 600 100 100 1 0
        [⟨-300, 0, 5, 0⟩, ⟨0, 0, 3, 3⟩], q.vx ≠ 0 := by
  have he : Threads.boundsStep 800 600 100 100 1 0 [⟨-300, 0, 5, 0⟩, ⟨0, 0, 3, 3⟩]
      = [⟨140, 100, 5, 0⟩, ⟨124, 100, 0, 0⟩] := by
    norm_num [Threads.boundsStep, Threads.headOutOfBounds, Threads.recoverThread,
      Threads.SEGMENT_LENGTH, List.range_succ]
  refine ⟨⟨140, 100, 5, 0⟩, ?_, by norm_num⟩
  rw [he]
  exact List.mem_cons_self _ _

/-- Claim C1 (amended): in any tick whose head has exited the extended
viewport margin, the same tick teleports the entire thread: the head lands
at distance 40 from the goal along the fresh random angle (cosine `c`,
sine `s`), every later point `i` is laid out `i * SEGMENT_LENGTH` behind it
along that angle with zero velocity, and the repositioned head lies within
the margin again — but the head keeps its pre-recovery velocity; only the
non-head points are zeroed. -/
theorem bounds_recovery_teleports_thread (innerWidth innerHeight gx gy c s : ℚ)
    (head : Threads.ThreadPoint) (tail : List Threads.ThreadPoint)
    (hcs : c ^ 2 + s ^ 2 = 1)
    (hgx0 : 0 ≤ gx) (hgxW : gx ≤ innerWidth) (hgy0 : 0 ≤ gy) (hgyH : gy ≤ innerHeight)
    (hout : Threads.headOutOfBounds innerWidth innerHeight head = true) :
    ∃ h' t', Threads.boundsStep innerWidth innerHeight gx gy c s (head :: tail) = h' :: t' ∧
      (h'.x - gx) ^ 2 + (h'.y - gy) ^ 2 = 40 ^ 2 ∧
      Threads.headOutOfBounds innerWidth innerHeight h' = false ∧
      h'.vx = head.vx ∧ h'.vy = head.vy ∧
      t'.length = tail.length ∧
      ∀ i (hi : i < t'.length),
        (t'.get ⟨i, hi⟩).x = h'.x - c * ((i : ℚ) + 1) * Threads.SEGMENT_LENGTH ∧
        (t'.get ⟨i, hi⟩).y = h'.y - s * ((i : ℚ) + 1) * Threads.SEGMENT_LENGTH ∧
        (t'.get ⟨i, hi⟩).vx = 0 ∧ (t'.get ⟨i, hi⟩).vy = 0 := by
  have hcm : -1 ≤ c := by nlinarith [sq_nonneg (c + 1), sq_nonneg s]
  have hcp : c ≤ 1 := by nlinarith [sq_nonneg (c - 1), sq_nonneg s]
  have hsm : -1 ≤ s := by nlinarith [sq_nonneg (s + 1), sq_nonneg c]
  have hsp : s ≤ 1 := by nlinarith [sq_nonneg (s - 1), sq_nonneg c]
  refine ⟨⟨gx + c * 40, gy + s * 40, head.vx, head.vy⟩,
    (List.range tail.length).map fun (j : ℕ) =>
      ⟨gx + c * 40 - c * ((j : ℚ) + 1) * Threads.SEGMENT_LENGTH,
       gy + s * 40 - s * ((j : ℚ) + 1) * Threads.SEGMENT_LENGTH, 0, 0⟩,
    ?_, ?_, ?_, rfl, rfl, ?_, ?_⟩
  · have hb : Threads.boundsStep innerWidth innerHeight gx gy c s (head :: tail)
        = Threads.recoverThread gx gy c s (head :: tail) := by
      simp [Threads.boundsStep, hout]
    rw [hb]
    rfl
  · show (gx + c * 40 - gx) ^ 2 + (gy + s * 40 - gy) ^ 2 = 40 ^ 2
    linear_combination (1600 : ℚ) * hcs
  · simp only [Threads.headOutOfBounds, Bool.or_eq_false_iff, decide_eq_false_iff_not, not_lt]
    refine ⟨⟨⟨?_, ?_⟩, ?_⟩, ?_⟩ <;> · show _ ≤ _; linarith
  · simp
  · intro i hi
    simp [List.get_eq_getElem, List.getElem_map, List.getElem_range]

/-- Witness for `bounds_recovery_teleports_thread`: viewport 800 × 600,
goal (100, 100), angle 0, a head at x = −300 with velocity (5, 0) and one
trailing point. -/
theorem bounds_recovery_teleports_thread_witness :
    ∃ h' t', Threads.boundsStep 800 600 100 100 1 0
        (⟨-300, 0, 5, 0⟩ :: [⟨0, 0, 3, 3⟩]) = h' :: t' ∧
      (h'.x - 100) ^ 2 + (h'.y - 100) ^ 2 = 40 ^ 2 ∧
      Threads.headOutOfBounds 800 600 h' = false ∧
      h'.vx = 5 ∧ h'.vy = 0 ∧
      t'.length = 1 ∧
      ∀ i (hi : i < t'.length),
        (t'.get ⟨i, hi⟩).x = h'.x - 1 * ((i : ℚ) + 1) * Threads.SEGMENT_LENGTH ∧
        (t'.get ⟨i, hi⟩).y = h'.y - 0 * ((i : ℚ) + 1) * Threads.SEGMENT_LENGTH ∧
        (t'.get ⟨i, hi⟩).vx = 0 ∧ (t'.get ⟨i, hi⟩).vy = 0 :=
  bounds_recovery_teleports_thread 800 600 100 100 1 0 ⟨-300, 0, 5, 0⟩ [⟨0, 0, 3, 3⟩]
    (by norm_num) (by norm_num) (by norm_num) (by norm_num) (by norm_num)
    (by norm_num [Threads.headOutOfBounds])

end FluidSim
